import Mathlib

/-!
Shallow embedding of `src/rotary_encoder/driver/rotary_encoder.c`
(STM32_Utilities).

The C driver keeps a fixed array of five `rot_enc_handle_t *` slots
(`registered_handles`), a 16-entry lookup table mapping a 4-bit phase
transition code to a step in `\x7b-1, 0, 1\x7d`, and three operations:
registration (`init_rotary_encoder`), dispatch (`determine_trigger` and
`rot_enc_callback`) and the quadrature decode step
(`decode_phase_transition`).

Modelling choices:
* `rot_enc_handle_t` becomes the structure `RotEncHandle`.  The pin
  identifiers (`uint16_t`) and the 2-bit phase states (`uint8_t`) are
  `Nat`; the counter fields (`int16_t`) are `Int`.  The driver's
  arithmetic on these fields never overflows their C types whenever the
  fields themselves are in range (the clamp guards every `counter`
  update to a unit step strictly inside `int16_t` bounds), so plain
  `Nat`/`Int` arithmetic coincides with the C semantics there; the only
  place a C truncation can occur, the `uint8_t` store of the transition
  code, is kept as an explicit `% 256`.
* Reading the two phase pins (`HAL_GPIO_ReadPin`) is an external
  primitive; the decode step is parameterised over the two sampled bits.
* The registry array is a `List (Option RotEncHandle)` of length 5; a
  `none` slot is a `NULL` pointer.  The C lookup loop reads
  `registered_handles[index]->pin_a` without a `NULL` check, so reading
  a field of a `none` slot is modelled as the error `CErr.nullSlotDeref`,
  and `rot_enc_callback`'s unchecked field read of a `NULL` lookup
  result is the error `CErr.nullHandleDeref`.  Both mark executions that
  are undefined behaviour in C.
* In-place mutation through the handle pointer becomes returning the
  updated `RotEncHandle` value.
-/

namespace STM32RotaryEncoder

/-- Model of `rot_enc_handle_t`: configuration pins, counter state and
the two 2-bit phase-state fields of one encoder instance. -/
structure RotEncHandle where
  pin_a : Nat
  pin_b : Nat
  button_pin : Nat
  counter : Int
  counter_min : Int
  counter_max : Int
  reset_value : Int
  old_state : Nat
  new_state : Nat
deriving DecidableEq

/-- `MAX_NUM_OF_ENCODERS` from the driver. -/
def MAX_NUM_OF_ENCODERS : Nat := 5

/-- The driver's `rot_enc_lookup_table`. -/
def rot_enc_lookup_table : List Int :=
  [0, -1, 1, 0, 1, 0, 0, -1, -1, 0, 0, 1, 0, 1, -1, 0]

/-- `get_state`, parameterised over the two sampled pin levels:
packs them as `0b000000AB`. -/
def get_state (bit_a bit_b : Bool) : Nat :=
  ((if bit_a then 1 else 0) <<< 1) ||| (if bit_b then 1 else 0)

/-- The `uint8_t transition = (old_state << 2) | new_state` computation
of `decode_phase_transition` (the `% 256` is the `uint8_t` store). -/
def transition_code (old_state new_state : Nat) : Nat :=
  ((old_state <<< 2) ||| new_state) % 256

/-- The table lookup `rot_enc_lookup_table[transition]` performed by
`decode_phase_transition`. -/
def lookup_step (old_state new_state : Nat) : Int :=
  rot_enc_lookup_table.getD (transition_code old_state new_state) 0

/-- `decode_phase_transition`: sample the new 2-bit state, look up the
step for the transition, apply it to the counter under the min/max
clamps, and unconditionally store the new state as `old_state`. -/
def decode_phase_transition (h : RotEncHandle) (bit_a bit_b : Bool) : RotEncHandle :=
  let ns := get_state bit_a bit_b
  let lookup_value := lookup_step h.old_state ns
  let counter :=
    if lookup_value < 0 then
      if h.counter_min < h.counter then h.counter + lookup_value else h.counter
    else if 0 < lookup_value then
      if h.counter < h.counter_max then h.counter + lookup_value else h.counter
    else h.counter
  { h with new_state := ns, counter := counter, old_state := ns }

/-- Marker for executions that are undefined behaviour in the C code:
reading a field through a `NULL` registry slot inside
`determine_trigger`, or through the `NULL` result of
`determine_trigger` inside `rot_enc_callback`. -/
inductive CErr where
  | nullSlotDeref
  | nullHandleDeref
deriving DecidableEq

/-- `determine_trigger`: scan the registry slots in order and return the
first instance owning the pin.  The C loop reads
`registered_handles[index]->pin_a` without a `NULL` check, so reaching a
`none` slot is the `nullSlotDeref` error; `.ok none` is the clean
`return NULL` after the loop. -/
def determine_trigger : List (Option RotEncHandle) → Nat → Except CErr (Option RotEncHandle)
  | [], _ => .ok none
  | none :: _, _ => .error .nullSlotDeref
  | some h :: rest, gpio_pin =>
    if h.pin_a = gpio_pin ∨ h.pin_b = gpio_pin ∨ h.button_pin = gpio_pin then .ok (some h)
    else determine_trigger rest gpio_pin

/-- `init_rotary_encoder`: store the handle in the first `NULL` slot and
report success, or report failure leaving the registry unchanged. -/
def init_rotary_encoder : List (Option RotEncHandle) → RotEncHandle → Bool × List (Option RotEncHandle)
  | [], _ => (false, [])
  | none :: rest, h => (true, some h :: rest)
  | some x :: rest, h =>
    let r := init_rotary_encoder rest h
    (r.1, some x :: r.2)

/-- The effect of `rot_enc_callback` on the resolved instance: reset the
counter on a button pin, otherwise run the decode step. -/
def rot_enc_event (h : RotEncHandle) (gpio_pin : Nat) (bit_a bit_b : Bool) : RotEncHandle :=
  if h.button_pin = gpio_pin then { h with counter := h.reset_value }
  else decode_phase_transition h bit_a bit_b

/-- `rot_enc_callback`: resolve the instance for the pin and apply the
event to it.  The C code reads `handle_ptr->button_pin` without checking
the lookup result for `NULL`, so a clean `NULL` result becomes the
`nullHandleDeref` error. -/
def rot_enc_callback (reg : List (Option RotEncHandle)) (gpio_pin : Nat)
    (bit_a bit_b : Bool) : Except CErr RotEncHandle :=
  match determine_trigger reg gpio_pin with
  | .error e => .error e
  | .ok none => .error .nullHandleDeref
  | .ok (some h) => .ok (rot_enc_event h gpio_pin bit_a bit_b)

/-- `rot_enc_get_count_value`: pure read accessor. -/
def rot_enc_get_count_value (h : RotEncHandle) : Int :=
  h.counter

/-- A sequence of events delivered to one instance; each event carries
the firing pin and the two sampled phase levels. -/
def rot_enc_event_seq (h : RotEncHandle) (evs : List (Nat × Bool × Bool)) : RotEncHandle :=
  evs.foldl (fun acc e => rot_enc_event acc e.1 e.2.1 e.2.2) h

/-- A sequence of phase-edge events (decode steps only). -/
def decode_seq (h : RotEncHandle) (evs : List (Bool × Bool)) : RotEncHandle :=
  evs.foldl (fun acc e => decode_phase_transition acc e.1 e.2) h

/-- The registry as it is zero-initialised at startup: all slots `NULL`. -/
def initial_registry : List (Option RotEncHandle) :=
  List.replicate MAX_NUM_OF_ENCODERS none

/-- A freshly configured instance with the given pins, bounds `[0, 10]`,
counter and reset value `0`, and zero-initialised phase state. -/
def mk_handle (pa pb btn : Nat) : RotEncHandle :=
  { pin_a := pa, pin_b := pb, button_pin := btn, counter := 0, counter_min := 0,
    counter_max := 10, reset_value := 0, old_state := 0, new_state := 0 }

/-- A registry with all five slots occupied by instances with pairwise
distinct pins `1`–`15`. -/
def full_registry : List (Option RotEncHandle) :=
  [some (mk_handle 1 2 3), some (mk_handle 4 5 6), some (mk_handle 7 8 9),
   some (mk_handle 10 11 12), some (mk_handle 13 14 15)]

/-- An instance whose `reset_value` lies outside its own counter bounds:
bounds `[0, 10]`, `reset_value = 20`. -/
def cex_handle : RotEncHandle :=
  { pin_a := 1, pin_b := 2, button_pin := 3, counter := 5, counter_min := 0,
    counter_max := 10, reset_value := 20, old_state := 0, new_state := 0 }

/-- An instance mid-run: counter `5` in bounds `[0, 10]`, phase state `0`. -/
def run_handle : RotEncHandle :=
  { pin_a := 1, pin_b := 2, button_pin := 3, counter := 5, counter_min := 0,
    counter_max := 10, reset_value := 0, old_state := 0, new_state := 0 }

/-- The invariant maintained by the driver on one instance: a 2-bit
phase state, counter within bounds, reset value within bounds. -/
def Inv (h : RotEncHandle) : Prop :=
  h.old_state < 4 ∧
    (h.counter_min ≤ h.counter ∧ h.counter ≤ h.counter_max) ∧
    (h.counter_min ≤ h.reset_value ∧ h.reset_value ≤ h.counter_max)

theorem table_getD_cases (i : Nat) :
    rot_enc_lookup_table.getD i 0 = -1 ∨ rot_enc_lookup_table.getD i 0 = 0 ∨
      rot_enc_lookup_table.getD i 0 = 1 := by
  rcases Nat.lt_or_ge i 16 with hlt | hge
  · interval_cases i <;> decide
  · right; left
    exact List.getD_eq_default _ _ hge

theorem lookup_step_cases (o n : Nat) :
    lookup_step o n = -1 ∨ lookup_step o n = 0 ∨ lookup_step o n = 1 :=
  table_getD_cases _

theorem decode_counter_eq (h : RotEncHandle) (a b : Bool) :
    (decode_phase_transition h a b).counter =
      if lookup_step h.old_state (get_state a b) < 0 then
        (if h.counter_min < h.counter then
          h.counter + lookup_step h.old_state (get_state a b) else h.counter)
      else if 0 < lookup_step h.old_state (get_state a b) then
        (if h.counter < h.counter_max then
          h.counter + lookup_step h.old_state (get_state a b) else h.counter)
      else h.counter := rfl

theorem decode_old_state_eq (h : RotEncHandle) (a b : Bool) :
    (decode_phase_transition h a b).old_state = get_state a b := rfl

theorem get_state_lt (a b : Bool) : get_state a b < 4 := by
  cases a <;> cases b <;> decide

theorem decode_counter_bounds (h : RotEncHandle) (a b : Bool)
    (hc : h.counter_min ≤ h.counter ∧ h.counter ≤ h.counter_max) :
    h.counter_min ≤ (decode_phase_transition h a b).counter ∧
      (decode_phase_transition h a b).counter ≤ h.counter_max := by
  rw [decode_counter_eq]
  rcases lookup_step_cases h.old_state (get_state a b) with hm | hm | hm <;>
    rw [hm] <;> split_ifs <;> omega

theorem event_config_frame (h : RotEncHandle) (gpio_pin : Nat) (a b : Bool) :
    (rot_enc_event h gpio_pin a b).counter_min = h.counter_min ∧
      (rot_enc_event h gpio_pin a b).counter_max = h.counter_max ∧
      (rot_enc_event h gpio_pin a b).reset_value = h.reset_value := by
  unfold rot_enc_event
  split <;> exact ⟨rfl, rfl, rfl⟩

theorem event_old_state (h : RotEncHandle) (gpio_pin : Nat) (a b : Bool)
    (ho : h.old_state < 4) : (rot_enc_event h gpio_pin a b).old_state < 4 := by
  unfold rot_enc_event
  split
  · exact ho
  · exact get_state_lt a b

theorem inv_step (h : RotEncHandle) (gpio_pin : Nat) (a b : Bool) (hI : Inv h) :
    Inv (rot_enc_event h gpio_pin a b) := by
  obtain ⟨ho, hc, hr⟩ := hI
  refine ⟨event_old_state h gpio_pin a b ho, ?_, ?_⟩
  · unfold rot_enc_event
    split
    · exact hr
    · exact decode_counter_bounds h a b hc
  · unfold rot_enc_event
    split
    · exact hr
    · exact hr

theorem inv_seq (evs : List (Nat × Bool × Bool)) :
    ∀ h : RotEncHandle, Inv h → Inv (rot_enc_event_seq h evs) := by
  induction evs with
  | nil => exact fun h hI => hI
  | cons e rest ih =>
    intro h hI
    exact ih (rot_enc_event h e.1 e.2.1 e.2.2) (inv_step h e.1 e.2.1 e.2.2 hI)

theorem old_state_seq (evs : List (Nat × Bool × Bool)) :
    ∀ h : RotEncHandle, h.old_state < 4 → (rot_enc_event_seq h evs).old_state < 4 := by
  induction evs with
  | nil => exact fun h ho => ho
  | cons e rest ih =>
    intro h ho
    exact ih (rot_enc_event h e.1 e.2.1 e.2.2) (event_old_state h e.1 e.2.1 e.2.2 ho)

theorem transition_code_eq (o n : Nat) (ho : o < 4) (hn : n < 4) :
    transition_code o n = o * 4 + n ∧ transition_code o n < 16 := by
  interval_cases o <;> interval_cases n <;> exact ⟨rfl, by decide⟩

/-- Claim C1 (amended): for an instance whose phase state is 2-bit (as
after zero-initialization) and whose counter and `reset_value` lie
within `[counter_min, counter_max]` at initialization,
`counter_min ≤ counter ≤ counter_max` holds after every event of every
sequence of phase-edge and button events. -/
theorem counter_always_in_bounds (h : RotEncHandle) (evs : List (Nat × Bool × Bool))
    (hstate : h.old_state < 4)
    (hc : h.counter_min ≤ h.counter ∧ h.counter ≤ h.counter_max)
    (hr : h.counter_min ≤ h.reset_value ∧ h.reset_value ≤ h.counter_max) :
    (rot_enc_event_seq h evs).counter_min ≤ (rot_enc_event_seq h evs).counter ∧
      (rot_enc_event_seq h evs).counter ≤ (rot_enc_event_seq h evs).counter_max :=
  (inv_seq evs h ⟨hstate, hc, hr⟩).2.1

/-- Claim C1, witness: a concrete in-bounds instance stays in bounds
across a phase edge followed by a button press. -/
theorem counter_always_in_bounds_witness :
    (rot_enc_event_seq run_handle [(1, true, false), (3, false, false)]).counter_min ≤
        (rot_enc_event_seq run_handle [(1, true, false), (3, false, false)]).counter ∧
      (rot_enc_event_seq run_handle [(1, true, false), (3, false, false)]).counter ≤
        (rot_enc_event_seq run_handle [(1, true, false), (3, false, false)]).counter_max :=
  counter_always_in_bounds run_handle [(1, true, false), (3, false, false)]
    (by decide) (by decide) (by decide)

/-- Claim C1, counterexample to the claim as stated: `cex_handle` has
counter `5` within bounds `[0, 10]` but `reset_value = 20`; a single
button event (pin `3`, its `button_pin`) drives the counter to `20`,
outside `[counter_min, counter_max]`. -/
theorem counter_bounds_counterexample :
    ¬ ((rot_enc_event cex_handle 3 false false).counter_min ≤
          (rot_enc_event cex_handle 3 false false).counter ∧
        (rot_enc_event cex_handle 3 false false).counter ≤
          (rot_enc_event cex_handle 3 false false).counter_max) := by
  decide

/-- Claim C2: for all 16 transition codes `prev*4+next` with
`prev, next < 4`, the step used by the decode step equals the fixed
table `[0,-1,1,0, 1,0,0,-1, -1,0,0,1, 0,1,-1,0]`; codes
`\x7b0,3,5,6,9,10,12,15\x7d` yield `0`, codes `\x7b1,7,8,14\x7d` yield
`-1`, codes `\x7b2,4,11,13\x7d` yield `1`, and double-bit (invalid)
transitions are absorbed as `0`. -/
theorem decode_step_matches_table (prev next : Nat) (hp : prev < 4) (hn : next < 4) :
    lookup_step prev next =
        ([0, -1, 1, 0, 1, 0, 0, -1, -1, 0, 0, 1, 0, 1, -1, 0] : List Int).getD
          (prev * 4 + next) 0 ∧
      (lookup_step prev next = 0 ↔ (prev * 4 + next) ∈ [0, 3, 5, 6, 9, 10, 12, 15]) ∧
      (lookup_step prev next = -1 ↔ (prev * 4 + next) ∈ [1, 7, 8, 14]) ∧
      (lookup_step prev next = 1 ↔ (prev * 4 + next) ∈ [2, 4, 11, 13]) ∧
      (prev ^^^ next = 3 → lookup_step prev next = 0) := by
  interval_cases prev <;> interval_cases next <;> decide

/-- Claim C2, witness: code `1` (prev `0`, next `1`) steps by `-1`. -/
theorem decode_step_matches_table_witness : lookup_step 0 1 = -1 :=
  (decode_step_matches_table 0 1 (by decide) (by decide)).2.2.1.mpr (by decide)

/-- Claim C3: in the quadrature step a negative step is applied exactly
under `counter_min < counter` (so a decrement at the floor leaves the
counter unchanged), a positive step exactly under
`counter < counter_max`, and otherwise the counter is unchanged
(saturating, never wrapping). -/
theorem decode_clamp_exact (h : RotEncHandle) (a b : Bool) :
    (lookup_step h.old_state (get_state a b) < 0 →
        (decode_phase_transition h a b).counter =
          (if h.counter_min < h.counter then
            h.counter + lookup_step h.old_state (get_state a b) else h.counter)) ∧
      (0 < lookup_step h.old_state (get_state a b) →
        (decode_phase_transition h a b).counter =
          (if h.counter < h.counter_max then
            h.counter + lookup_step h.old_state (get_state a b) else h.counter)) ∧
      (lookup_step h.old_state (get_state a b) = 0 →
        (decode_phase_transition h a b).counter = h.counter) ∧
      ((decode_phase_transition h a b).counter ≠ h.counter ↔
        ((lookup_step h.old_state (get_state a b) < 0 ∧ h.counter_min < h.counter) ∨
          (0 < lookup_step h.old_state (get_state a b) ∧ h.counter < h.counter_max))) := by
  rw [decode_counter_eq]
  generalize lookup_step h.old_state (get_state a b) = s
  split_ifs <;> constructor <;> try constructor
  all_goals try constructor
  all_goals omega

/-- Claim C3, witness: `run_handle` (counter `5`, bounds `[0, 10]`,
phase state `0`) with sampled bits `(false, true)` takes the negative
branch of the clamp. -/
theorem decode_clamp_exact_witness :
    (decode_phase_transition run_handle false true).counter =
      (if run_handle.counter_min < run_handle.counter then
        run_handle.counter + lookup_step run_handle.old_state (get_state false true)
      else run_handle.counter) :=
  (decode_clamp_exact run_handle false true).1 (by decide)

/-- Claim C4: every phase-edge event unconditionally stores the newly
sampled 2-bit state into `old_state` (the spec's `last_phase_state`),
and after a sequence of phase-edge events ending in event `e`,
`old_state` equals the state sampled at `e`. -/
theorem last_phase_state_unconditional (h : RotEncHandle) (a b : Bool)
    (evs : List (Bool × Bool)) (e : Bool × Bool) :
    ((decode_phase_transition h a b).old_state = get_state a b ∧
        (decode_phase_transition h a b).new_state = get_state a b) ∧
      (decode_seq h (evs ++ [e])).old_state = get_state e.1 e.2 := by
  refine ⟨⟨rfl, rfl⟩, ?_⟩
  unfold decode_seq
  rw [List.foldl_append]
  rfl

/-- Claim C5: a button event (firing pin equal to the instance's
`button_pin`) sets the counter to `reset_value` and changes nothing
else: all pins, bounds, `reset_value` and both phase-state fields are
untouched. -/
theorem button_event_resets (h : RotEncHandle) (gpio_pin : Nat) (a b : Bool)
    (hbtn : gpio_pin = h.button_pin) :
    rot_enc_event h gpio_pin a b = { h with counter := h.reset_value } := by
  subst hbtn
  unfold rot_enc_event
  rw [if_pos rfl]

/-- Claim C5, witness: a button event on `cex_handle` (button pin `3`)
only rewrites the counter to its `reset_value`. -/
theorem button_event_resets_witness :
    rot_enc_event cex_handle 3 true false =
      { cex_handle with counter := cex_handle.reset_value } :=
  button_event_resets cex_handle 3 true false rfl

/-- Claim C6 (code defect): the spec says `determine_trigger` returns
`none` when no registered instance matches or the registry is empty, and
the code plainly intends that (`handle_ptr` is initialised to `NULL` and
returned), but the scan loop reads `registered_handles[index]->pin_a`
with no `NULL` check, so on the zero-initialised (empty) registry the
lookup for pin `7` dereferences the `NULL` slot `registered_handles[0]`
— undefined behaviour — instead of returning `none`. -/
theorem determine_trigger_null_slot :
    determine_trigger initial_registry 7 = .error .nullSlotDeref := rfl

/-- Claim C7: with all five slots occupied and a pin matching no
instance, `determine_trigger` cleanly returns `NULL`, and
`rot_enc_callback` then reads `handle_ptr->button_pin` through that
`NULL` result without any check: the null branch is reachable and is
followed unconditionally. -/
theorem callback_null_deref :
    determine_trigger full_registry 999 = .ok none ∧
      rot_enc_callback full_registry 999 true false = .error .nullHandleDeref :=
  ⟨rfl, rfl⟩

/-- Claim C8: registration stores the handle in the first unused slot
and succeeds exactly when some slot is free; on a full registry it fails
and leaves the registry — and hence every lookup through it — entirely
unchanged. -/
theorem init_rotary_encoder_spec (reg : List (Option RotEncHandle)) (h : RotEncHandle) :
    ((init_rotary_encoder reg h).1 = true ↔ none ∈ reg) ∧
      (none ∈ reg →
        (init_rotary_encoder reg h).2 =
          reg.set (reg.findIdx fun o => o.isNone) (some h)) ∧
      (none ∉ reg → init_rotary_encoder reg h = (false, reg)) ∧
      (none ∉ reg → ∀ gpio_pin : Nat,
        determine_trigger (init_rotary_encoder reg h).2 gpio_pin =
          determine_trigger reg gpio_pin) := by
  induction reg with
  | nil =>
    exact ⟨by simp [init_rotary_encoder], by simp, fun _ => rfl, fun _ _ => rfl⟩
  | cons x rest ih =>
    cases x with
    | none =>
      refine ⟨?_, ?_, ?_, ?_⟩
      · simp [init_rotary_encoder]
      · intro _
        simp [init_rotary_encoder, List.findIdx_cons, List.set]
      · intro hn
        exact absurd (List.mem_cons_self _ _) hn
      · intro hn
        exact absurd (List.mem_cons_self _ _) hn
    | some y =>
      obtain ⟨ih1, ih2, ih3, _⟩ := ih
      refine ⟨?_, ?_, ?_, ?_⟩
      · simpa [init_rotary_encoder] using ih1
      · intro hmem
        have hr : none ∈ rest := by simpa using hmem
        simp [init_rotary_encoder, List.findIdx_cons, List.set]
        exact ih2 hr
      · intro hn
        have hr : none ∉ rest := fun hm => hn (List.mem_cons_of_mem _ hm)
        have h3 := ih3 hr
        show ((init_rotary_encoder rest h).1, some y :: (init_rotary_encoder rest h).2) =
          (false, some y :: rest)
        rw [h3]
      · intro hn gpio_pin
        have hr : none ∉ rest := fun hm => hn (List.mem_cons_of_mem _ hm)
        have h3 := ih3 hr
        show determine_trigger
            ((init_rotary_encoder rest h).1, some y :: (init_rotary_encoder rest h).2).2
            gpio_pin = determine_trigger (some y :: rest) gpio_pin
        rw [h3]

/-- Claim C8, witness: registering into the empty registry fills slot
`0`, and a sixth registration into the full registry fails and returns
the registry unchanged. -/
theorem init_rotary_encoder_spec_witness :
    (init_rotary_encoder initial_registry (mk_handle 20 21 22)).2 =
        initial_registry.set (initial_registry.findIdx fun o => o.isNone)
          (some (mk_handle 20 21 22)) ∧
      init_rotary_encoder full_registry (mk_handle 90 91 92) = (false, full_registry) :=
  ⟨(init_rotary_encoder_spec initial_registry (mk_handle 20 21 22)).2.1 (by decide),
    (init_rotary_encoder_spec full_registry (mk_handle 90 91 92)).2.2.1 (by decide)⟩

/-- Claim C9: the sampled state is 2-bit, so when `old_state` is 2-bit
the transition code is `old_state * 4 + new_state < 16` and the 16-entry
table access is in bounds; the decode step re-establishes a 2-bit
`old_state`, and every event (and event sequence) preserves it. -/
theorem state_in_bounds (h : RotEncHandle) (gpio_pin : Nat) (a b : Bool)
    (evs : List (Nat × Bool × Bool)) :
    get_state a b < 4 ∧
      (h.old_state < 4 →
        transition_code h.old_state (get_state a b) = h.old_state * 4 + get_state a b ∧
          transition_code h.old_state (get_state a b) < 16) ∧
      (decode_phase_transition h a b).old_state < 4 ∧
      (h.old_state < 4 → (rot_enc_event h gpio_pin a b).old_state < 4) ∧
      (h.old_state < 4 → (rot_enc_event_seq h evs).old_state < 4) := by
  refine ⟨get_state_lt a b, ?_, ?_, event_old_state h gpio_pin a b, old_state_seq evs h⟩
  · intro ho
    exact transition_code_eq h.old_state (get_state a b) ho (get_state_lt a b)
  · rw [decode_old_state_eq]
    exact get_state_lt a b

/-- Claim C9, witness: for `run_handle` (phase state `0`) the lookup
index is in bounds and a one-event sequence keeps the state 2-bit. -/
theorem state_in_bounds_witness :
    transition_code run_handle.old_state (get_state true false) < 16 ∧
      (rot_enc_event_seq run_handle [(3, true, true)]).old_state < 4 :=
  ⟨((state_in_bounds run_handle 3 true false [(3, true, true)]).2.1 (by decide)).2,
    (state_in_bounds run_handle 3 true false [(3, true, true)]).2.2.2.2 (by decide)⟩

/-- Claim C10: the transition table is antisymmetric under reversal of
the transition (`table[p*4+n] = -table[n*4+p]`), and every diagonal
entry is `0`. -/
theorem lookup_table_antisymmetric (p n : Nat) (hp : p < 4) (hn : n < 4) :
    rot_enc_lookup_table.getD (p * 4 + n) 0 = -rot_enc_lookup_table.getD (n * 4 + p) 0 ∧
      rot_enc_lookup_table.getD (p * 4 + p) 0 = 0 := by
  interval_cases p <;> interval_cases n <;> decide

/-- Claim C10, witness: entry `1` is the negation of entry `4`. -/
theorem lookup_table_antisymmetric_witness :
    rot_enc_lookup_table.getD (0 * 4 + 1) 0 = -rot_enc_lookup_table.getD (1 * 4 + 0) 0 :=
  (lookup_table_antisymmetric 0 1 (by decide) (by decide)).1

end STM32RotaryEncoder
